import Mathlib

/-!
Shallow embedding of the room/game state machine of the
`you-are-officially-sus` server (Go sources under `internal/`).

Go maps are embedded as association lists `List (String × α)`; Go map
operations preserve key-uniqueness, which theorems carry as `NodupKeys`
hypotheses where sizes matter.  Map iteration order in Go is arbitrary;
every embedded operation below is order-independent in its observable
effect (or, for `assignNewHost`, transliterated over the list order,
which agrees with the Go scan for the UUID keys the server generates).
-/

namespace Sus

/-- Association-list lookup, embedding a Go map read `m[k]`. -/
def lookupA {α : Type} (m : List (String × α)) (k : String) : Option α :=
  (m.find? (fun p => p.1 = k)).map Prod.snd

/-- Association-list membership test, embedding `_, ok := m[k]`. -/
def hasKeyA {α : Type} (m : List (String × α)) (k : String) : Bool :=
  m.any (fun p => p.1 = k)

/-- Association-list write, embedding a Go map assignment `m[k] = v`. -/
def insertA {α : Type} (m : List (String × α)) (k : String) (v : α) : List (String × α) :=
  if hasKeyA m k then m.map (fun p => if p.1 = k then (k, v) else p) else m ++ [(k, v)]

/-- Association-list deletion, embedding `delete(m, k)`. -/
def eraseA {α : Type} (m : List (String × α)) (k : String) : List (String × α) :=
  m.filter (fun p => p.1 ≠ k)

/-- The keys of an association list. -/
def keysA {α : Type} (m : List (String × α)) : List String :=
  m.map Prod.fst

/-- In-place update of an existing entry, embedding the Go pattern
`m[k].Field++` (mutation through the stored pointer). -/
def updateA {α : Type} (m : List (String × α)) (k : String) (f : α → α) : List (String × α) :=
  m.map (fun p => if p.1 = k then (p.1, f p.2) else p)

/-- Key-uniqueness of an association list (Go maps always satisfy this). -/
def NodupKeys {α : Type} (m : List (String × α)) : Prop :=
  (keysA m).Nodup

instance {α : Type} (m : List (String × α)) : Decidable (NodupKeys m) := by
  unfold NodupKeys; infer_instance

/-- `internal/models/game_status.go`: the game phases. -/
inductive GameStatus
  | waiting
  | readyCheck
  | roleReveal
  | playing
  | voting
  | finished
deriving DecidableEq, Repr

/-- `internal/models/player.go` `PlayerScore`: persistent per-room win/loss tally. -/
structure PlayerScore where
  gamesWon : Nat
  gamesLost : Nat
deriving DecidableEq, Repr

/-- `internal/models/player.go` `GamePlayerInfo`: per-game player data. -/
structure GamePlayerInfo where
  challenge : String
  isSpy : Bool
deriving DecidableEq, Repr

/-- `internal/models/game.go` `Game` (the `Location` pointer and the
`PlayStartedAt` wall-clock timestamp, which no verified claim reads,
are not carried). -/
structure Game where
  spyID : String
  spyName : String
  firstQuestioner : String
  playerInfo : List (String × GamePlayerInfo)
  status : GameStatus
  readyToReveal : List (String × Bool)
  readyAfterReveal : List (String × Bool)
  readyToVote : List (String × Bool)
  votes : List (String × String)
  voteRound : Nat
  spyForfeited : Bool
deriving DecidableEq, Repr

/-- `internal/models/player.go` `Lobby`: players maps id to display name;
`sseClients` maps an (abstract) channel identifier to the subscribed
player id. -/
structure Lobby where
  code : String
  host : String
  players : List (String × String)
  scores : List (String × PlayerScore)
  currentGame : Option Game
  sseClients : List (Nat × String)
deriving DecidableEq, Repr

/-- `internal/game/constants.go` `MinPlayers`. -/
def MinPlayers : Nat := 3

/-- `internal/game/constants.go` `MaxVoteRounds`. -/
def MaxVoteRounds : Nat := 3

/-- `internal/game/constants.go` `RoomCodeLength`. -/
def RoomCodeLength : Nat := 6

/-- `internal/game/constants.go` `RoomCodeChars`. -/
def RoomCodeChars : List Char := "ABCDEFGHJKLMNPQRSTUVWXYZ23456789".toList

/-! ## Vote tally (`gameHandleVoteCookie`, `internal/handlers/game.go`)

The Go loop builds `voteCount` by iterating the `votes` map and then
scans `voteCount` for the maximum and its achievers.  Both scans are
order-independent in their result: `voteCount` has one entry per
distinct suspect, and the final `playersWithMaxVotes` list contains
exactly the suspects whose count equals the overall maximum. -/

/-- Number of votes cast for suspect `s` (the `voteCount[s]` entry). -/
def voteCountOf (votes : List (String × String)) (s : String) : Nat :=
  (votes.filter (fun p => p.2 = s)).length

/-- The distinct suspects appearing as vote targets (keys of `voteCount`). -/
def receivedVotes (votes : List (String × String)) : List String :=
  (votes.map Prod.snd).dedup

/-- The maximum per-suspect count (`maxVotes`; 0 when no votes exist). -/
def maxVotes (votes : List (String × String)) : Nat :=
  ((receivedVotes votes).map (voteCountOf votes)).foldr max 0

/-- The suspects achieving the maximum count (`playersWithMaxVotes`). -/
def playersWithMaxVotes (votes : List (String × String)) : List String :=
  (receivedVotes votes).filter (fun s => voteCountOf votes s = maxVotes votes)

/-- The tie-set as a finite set of suspect ids. -/
def tieSet (votes : List (String × String)) : Finset String :=
  (playersWithMaxVotes votes).toFinset

/-- `innocentWon := len(playersWithMaxVotes) == 1 && playersWithMaxVotes[0] == g.SpyID`. -/
def innocentWonCalc (votes : List (String × String)) (spyID : String) : Bool :=
  (playersWithMaxVotes votes).length == 1 && (playersWithMaxVotes votes).headD "" == spyID

/-- The score mutation the finish branch applies to one member's entry. -/
def finishScoreFn (innocentWon : Bool) (spyID id : String) (s : PlayerScore) : PlayerScore :=
  if id = spyID then
    if innocentWon then { s with gamesLost := s.gamesLost + 1 }
    else { s with gamesWon := s.gamesWon + 1 }
  else
    if innocentWon then { s with gamesWon := s.gamesWon + 1 }
    else { s with gamesLost := s.gamesLost + 1 }

/-- The finish branch's `for id := range lobby.Players { ... }` score loop. -/
def applyFinishScores (players : List (String × String)) (scores : List (String × PlayerScore))
    (spyID : String) (innocentWon : Bool) : List (String × PlayerScore) :=
  players.foldl (fun sc p => updateA sc p.1 (finishScoreFn innocentWon spyID p.1)) scores

/-- Outcome of the cast-vote action visible to the handler's flags
(`shouldRevote` / `shouldFinish`, with the computed `innocentWon`). -/
inductive VoteOutcome
  | recorded
  | revote
  | finishedGame (innocentWon : Bool)
deriving DecidableEq, Repr

/-- `gameHandleVoteCookie` after lobby lookup and cookie extraction:
`none` is the `"Not in voting phase"` rejection. -/
def castVote (lobby : Lobby) (playerID suspectID : String) : Option (Lobby × VoteOutcome) :=
  match lobby.currentGame with
  | none => none
  | some g =>
    if g.status ≠ GameStatus.voting then none else
    let votes' := insertA g.votes playerID suspectID
    if votes'.length = lobby.players.length then
      if (playersWithMaxVotes votes').length > 1 ∧ g.voteRound < MaxVoteRounds then
        let g' := { g with votes := [], voteRound := g.voteRound + 1 }
        some ({ lobby with currentGame := some g' }, VoteOutcome.revote)
      else
        let iw := innocentWonCalc votes' g.spyID
        let scores' := applyFinishScores lobby.players lobby.scores g.spyID iw
        let g' := { g with votes := votes', status := GameStatus.finished }
        some ({ lobby with scores := scores', currentGame := some g' },
              VoteOutcome.finishedGame iw)
    else
      let g' := { g with votes := votes' }
      some ({ lobby with currentGame := some g' }, VoteOutcome.recorded)

/-! ## Readiness and phase advancement -/

/-- Count of members whose entry in a readiness map is `true`
(`for id := range lobby.Players { if m[id] { readyCount++ } }`). -/
def countReady (players : List (String × String)) (m : List (String × Bool)) : Nat :=
  (players.filter (fun p => (lookupA m p.1).getD false)).length

/-- Pre-seed a readiness map with `false` for members lacking an entry
(`for id := range lobby.Players { if _, ok := m[id]; !ok { m[id] = false } }`). -/
def preseed (players : List (String × String)) (m : List (String × Bool)) : List (String × Bool) :=
  players.foldl (fun acc p => if hasKeyA acc p.1 then acc else acc ++ [(p.1, false)]) m

/-- `playerIDs[rand.Intn(len(playerIDs))]`: the random draw is abstracted
by the ambient index `rnd`, reduced into range. -/
def pickPlayer (players : List (String × String)) (rnd : Nat) : String :=
  (keysA players).getD (rnd % players.length) ""

/-- `checkAndAdvancePhase` (`internal/handlers/lifecycle.go`): re-run the
phase-advancement rule after a member removal.  Returns the (possibly)
updated lobby and the `shouldAdvance` flag.  In the `StatusVoting` case
the source only reports that all votes are in; the vote calculation is
left to `gameHandleVoteCookie` and no state is mutated. -/
def checkAndAdvancePhase (lobby : Lobby) (rnd : Nat) : Lobby × Bool :=
  match lobby.currentGame with
  | none => (lobby, false)
  | some g =>
    let totalPlayers := lobby.players.length
    match g.status with
    | GameStatus.readyCheck =>
      if countReady lobby.players g.readyToReveal = totalPlayers then
        let g' := { g with status := GameStatus.roleReveal,
                           readyAfterReveal := preseed lobby.players g.readyAfterReveal }
        ({ lobby with currentGame := some g' }, true)
      else (lobby, false)
    | GameStatus.roleReveal =>
      if countReady lobby.players g.readyAfterReveal = totalPlayers then
        let fq := if g.firstQuestioner = "" then pickPlayer lobby.players rnd
                  else g.firstQuestioner
        let g' := { g with status := GameStatus.playing,
                           readyToVote := preseed lobby.players g.readyToVote,
                           firstQuestioner := fq }
        ({ lobby with currentGame := some g' }, true)
      else (lobby, false)
    | GameStatus.playing =>
      if countReady lobby.players g.readyToVote > totalPlayers / 2 then
        let g' := { g with status := GameStatus.voting }
        ({ lobby with currentGame := some g' }, true)
      else (lobby, false)
    | GameStatus.voting =>
      (lobby, decide (g.votes.length = totalPlayers))
    | _ => (lobby, false)

/-! ## Departure / disconnect (`internal/handlers/lifecycle.go`) -/

/-- `assignNewHost`: scan for the lowest player id
(`if firstID == "" || id < firstID { firstID = id }`). -/
def assignNewHost (players : List (String × String)) : String :=
  (keysA players).foldl (fun firstID id => if firstID = "" ∨ id < firstID then id else firstID) ""

/-- `removePlayerFromGame`: purge a player from all per-game maps and
clear `firstQuestioner` if it was this player. -/
def removePlayerFromGame (g : Game) (playerID : String) : Game :=
  { g with playerInfo := eraseA g.playerInfo playerID,
           readyToReveal := eraseA g.readyToReveal playerID,
           readyAfterReveal := eraseA g.readyAfterReveal playerID,
           readyToVote := eraseA g.readyToVote playerID,
           votes := eraseA g.votes playerID,
           firstQuestioner := if g.firstQuestioner = playerID then "" else g.firstQuestioner }

/-- The spy-forfeit score loop
(`for id := range lobby.Players { lobby.Scores[id].GamesWon++ }`). -/
def awardWinsAll (players : List (String × String)) (scores : List (String × PlayerScore)) :
    List (String × PlayerScore) :=
  players.foldl (fun sc p => updateA sc p.1 (fun s => { s with gamesWon := s.gamesWon + 1 })) scores

/-- Result of the leave/disconnect reconciliation.  The flags mirror the
local variables `phaseAdvanced`, `gameEnded` and `innocentsWon` that
drive the post-unlock broadcasts. -/
inductive LeaveResult
  | notInLobby
  | roomDeleted
  | left (lobby : Lobby) (phaseAdvanced gameEnded innocentsWon : Bool)
deriving DecidableEq, Repr

/-- `handleLeaveLogic`: the shared explicit-leave path.  `newHostID = ""`
means no explicit replacement was supplied (auto-assignment). -/
def handleLeaveLogic (lobby : Lobby) (playerID newHostID : String) (rnd : Nat) : LeaveResult :=
  if ¬ (hasKeyA lobby.players playerID = true) then LeaveResult.notInLobby else
  let wasHost := lobby.host = playerID
  let players' := eraseA lobby.players playerID
  let scores' := eraseA lobby.scores playerID
  if players'.length = 0 then LeaveResult.roomDeleted else
  let host' := if wasHost then (if newHostID ≠ "" then newHostID else assignNewHost players')
               else lobby.host
  let lobby1 := { lobby with players := players', scores := scores', host := host' }
  match lobby1.currentGame with
  | none => LeaveResult.left lobby1 false false false
  | some g =>
    let spyLeft := g.spyID = playerID
    let g1 := removePlayerFromGame g playerID
    if spyLeft then
      let g2 := { g1 with status := GameStatus.finished, spyForfeited := true }
      let scores2 := awardWinsAll players' scores'
      LeaveResult.left { lobby1 with currentGame := some g2, scores := scores2 } false true true
    else if players'.length < MinPlayers then
      LeaveResult.left { lobby1 with currentGame := none } false true false
    else
      let res := checkAndAdvancePhase { lobby1 with currentGame := some g1 } rnd
      LeaveResult.left res.1 res.2 false false

/-- `handlePlayerDisconnect`: the implicit-disconnect reconciliation.
Host reassignment is always automatic, and — unlike `handleLeaveLogic` —
no phase-advancement re-check is performed when the game continues. -/
def handlePlayerDisconnect (lobby : Lobby) (playerID : String) : LeaveResult :=
  if ¬ (hasKeyA lobby.players playerID = true) then LeaveResult.notInLobby else
  let wasHost := lobby.host = playerID
  let players' := eraseA lobby.players playerID
  let scores' := eraseA lobby.scores playerID
  if players'.length = 0 then LeaveResult.roomDeleted else
  let host' := if wasHost then assignNewHost players' else lobby.host
  let lobby1 := { lobby with players := players', scores := scores', host := host' }
  match lobby1.currentGame with
  | none => LeaveResult.left lobby1 false false false
  | some g =>
    let spyLeft := g.spyID = playerID
    let g1 := removePlayerFromGame g playerID
    if spyLeft then
      let g2 := { g1 with status := GameStatus.finished, spyForfeited := true }
      let scores2 := awardWinsAll players' scores'
      LeaveResult.left { lobby1 with currentGame := some g2, scores := scores2 } false true true
    else if players'.length < MinPlayers then
      LeaveResult.left { lobby1 with currentGame := none } false true false
    else
      LeaveResult.left { lobby1 with currentGame := some g1 } false false false

/-- What `HandleSSE` (`internal/handlers/sse.go`) actually does to room
state when a client's event stream closes: the `select` loop returns on
`reqCtx.Done()` and the deferred `sse.RemoveClient` deletes the channel
from the subscriber map.  No other field is touched; in particular
`handlePlayerDisconnect` has no caller in the sources. -/
def handleSSEStreamClose (lobby : Lobby) (ch : Nat) : Lobby :=
  { lobby with sseClients := lobby.sseClients.filter (fun p => p.1 ≠ ch) }

/-! ## Lobby creation and joining (`internal/handlers/lobby.go`) -/

/-- ASCII lowering, matching `strings.ToLower` on the ASCII names involved. -/
def lowerStr (s : String) : String :=
  String.mk (s.toList.map Char.toLower)

/-- `isNameTaken` (`internal/handlers/utils.go`): case-insensitive name
collision against every other player (the name is already trimmed at
both call sites, so the inner `TrimSpace` is a no-op). -/
def isNameTaken (players : List (String × String)) (name excludePlayerID : String) : Bool :=
  players.any (fun p => p.1 ≠ excludePlayerID ∧ lowerStr p.2 = lowerStr name)

/-- `HandleCreateLobby`: fresh room with the creator as host; `playerID`
stands for the generated UUID and `roomCode` for the generated code. -/
def handleCreateLobby (hostName playerID roomCode : String) : Lobby :=
  { code := roomCode, host := playerID,
    players := [(playerID, hostName)],
    scores := [(playerID, { gamesWon := 0, gamesLost := 0 })],
    currentGame := none, sseClients := [] }

/-- Result of `HandleJoinLobby`. -/
inductive JoinResult
  | gameInProgress
  | alreadyInLobby
  | nameTaken
  | joined (lobby : Lobby) (playerID : String)
deriving DecidableEq, Repr

/-- `HandleJoinLobby`: `cookiePid` is the browser's `player_id` cookie if
present, `freshID` the UUID drawn when a new identity is needed.  A
cookie whose id is already a member short-circuits; otherwise the cookie
id is reused (rejoin) and a score entry is created only when none
exists. -/
def handleJoinLobby (lobby : Lobby) (cookiePid : Option String) (playerName freshID : String) :
    JoinResult :=
  if lobby.currentGame ≠ none then JoinResult.gameInProgress else
  let pid := match cookiePid with
             | some c => if c ≠ "" then c else freshID
             | none => freshID
  if (match cookiePid with
      | some c => c ≠ "" && hasKeyA lobby.players c
      | none => false : Bool) then JoinResult.alreadyInLobby
  else if isNameTaken lobby.players playerName pid then JoinResult.nameTaken
  else
    let scores' := if hasKeyA lobby.scores pid then lobby.scores
                   else insertA lobby.scores pid { gamesWon := 0, gamesLost := 0 }
    JoinResult.joined { lobby with players := insertA lobby.players pid playerName,
                                   scores := scores' } pid

/-! ## Start / restart / close (`internal/handlers/lifecycle.go`) -/

/-- `HandleStartGame` after lobby lookup and cookie extraction.  The
random draws (location, spy, challenge shuffle) are abstracted by
`spyIdx` and the pre-shuffled `challenges` list; `none` is a rejection
(non-host, game already running, or too few players). -/
def handleStartGame (lobby : Lobby) (playerID : String) (spyIdx : Nat)
    (challenges : List String) : Option Lobby :=
  if lobby.host ≠ playerID then none else
  if lobby.currentGame ≠ none then none else
  if lobby.players.length < MinPlayers then none else
  let playerIDs := keysA lobby.players
  let spyID := playerIDs.getD (spyIdx % playerIDs.length) ""
  let newGame : Game :=
    { spyID := spyID,
      spyName := (lookupA lobby.players spyID).getD "",
      firstQuestioner := "",
      playerInfo := (List.range playerIDs.length).map (fun i =>
        (playerIDs.getD i "",
         { challenge := challenges.getD (i % challenges.length) "",
           isSpy := playerIDs.getD i "" = spyID })),
      status := GameStatus.readyCheck,
      readyToReveal := lobby.players.map (fun p => (p.1, false)),
      readyAfterReveal := [],
      readyToVote := [],
      votes := [],
      voteRound := 1,
      spyForfeited := false }
  some { lobby with currentGame := some newGame }

/-- `HandleRestartGame`: host-only; clears the game. -/
def handleRestartGame (lobby : Lobby) (playerID : String) : Lobby :=
  if lobby.host = playerID then { lobby with currentGame := none } else lobby

/-! ## Ready toggle (`gameHandleReadyCookie`, `internal/handlers/game.go`) -/

/-- `gameHandleReadyCookie` after lobby lookup and cookie extraction:
toggle the current phase's readiness entry, recount from the live member
set, and advance when the phase's rule fires.  `none` is a rejection
(no game, or a phase without a readiness map); the returned flag is
`shouldBroadcastPhase` (phase advanced). -/
def gameHandleReady (lobby : Lobby) (playerID : String) (rnd : Nat) : Option (Lobby × Bool) :=
  match lobby.currentGame with
  | none => none
  | some g =>
    match g.status with
    | GameStatus.readyCheck =>
      let m := insertA g.readyToReveal playerID (! ((lookupA g.readyToReveal playerID).getD false))
      let g1 := { g with readyToReveal := m }
      if countReady lobby.players m = lobby.players.length then
        let g2 := { g1 with status := GameStatus.roleReveal,
                            readyAfterReveal := preseed lobby.players g1.readyAfterReveal }
        some ({ lobby with currentGame := some g2 }, true)
      else some ({ lobby with currentGame := some g1 }, false)
    | GameStatus.roleReveal =>
      let m := insertA g.readyAfterReveal playerID
                 (! ((lookupA g.readyAfterReveal playerID).getD false))
      let g1 := { g with readyAfterReveal := m }
      if countReady lobby.players m = lobby.players.length then
        let g2 := { g1 with status := GameStatus.playing,
                            readyToVote := preseed lobby.players g1.readyToVote,
                            firstQuestioner := pickPlayer lobby.players rnd }
        some ({ lobby with currentGame := some g2 }, true)
      else some ({ lobby with currentGame := some g1 }, false)
    | GameStatus.playing =>
      let m := insertA g.readyToVote playerID (! ((lookupA g.readyToVote playerID).getD false))
      let g1 := { g with readyToVote := m }
      if countReady lobby.players m > lobby.players.length / 2 then
        let g2 := { g1 with status := GameStatus.voting }
        some ({ lobby with currentGame := some g2 }, true)
      else some ({ lobby with currentGame := some g1 }, false)
    | _ => none

/-! ## Room codes (`internal/game/utils.go`) -/

/-- `GenerateRoomCode`: six draws from `RoomCodeChars`; the random source
is abstracted by the index stream `r`, reduced into range exactly as
`crand.Int(_, len(RoomCodeChars))` (or the `rand.Intn` fallback)
produces an in-range index. -/
def GenerateRoomCode (r : Nat → Nat) : List Char :=
  (List.range RoomCodeLength).map (fun i => RoomCodeChars.getD (r i % RoomCodeChars.length) 'A')

/-- `GetUniqueRoomCode`: retry `GenerateRoomCode` (with fresh randomness
`r n` on iteration `n`) until the registry does not contain the code.
The hypothesis is the loop's termination condition — some draw misses
the registry, which holds with probability 1. -/
def GetUniqueRoomCode (registryHas : List Char → Bool) (r : Nat → Nat → Nat)
    (h : ∃ n, registryHas (GenerateRoomCode (r n)) = false) : List Char :=
  GenerateRoomCode (r (Nat.find h))

/-! ## The registry-level operations for the host invariant -/

/-- One mutating room operation, as dispatched by the HTTP handlers. -/
inductive RoomOp
  | join (cookiePid : Option String) (name freshID : String)
  | leave (playerID newHostID : String) (rnd : Nat)
  | disconnect (playerID : String)
  | start (playerID : String) (spyIdx : Nat) (challenges : List String)
  | restart (playerID : String)
  | close (playerID : String)

/-- Apply one operation to a registered room; `none` means the room was
deleted from the registry (`LobbyStore.Delete`).  Rejected requests
leave the room unchanged. -/
def applyRoomOp (lobby : Lobby) (op : RoomOp) : Option Lobby :=
  match op with
  | RoomOp.join c n f =>
    match handleJoinLobby lobby c n f with
    | JoinResult.joined l _ => some l
    | _ => some lobby
  | RoomOp.leave pid nh rnd =>
    match handleLeaveLogic lobby pid nh rnd with
    | LeaveResult.notInLobby => some lobby
    | LeaveResult.roomDeleted => none
    | LeaveResult.left l _ _ _ => some l
  | RoomOp.disconnect pid =>
    match handlePlayerDisconnect lobby pid with
    | LeaveResult.notInLobby => some lobby
    | LeaveResult.roomDeleted => none
    | LeaveResult.left l _ _ _ => some l
  | RoomOp.start pid spyIdx ch => some ((handleStartGame lobby pid spyIdx ch).getD lobby)
  | RoomOp.restart pid => some (handleRestartGame lobby pid)
  | RoomOp.close pid => if lobby.host = pid then none else some lobby

/-- The host invariant of §8: the host is a member whenever any member exists. -/
def hostInvariant (l : Lobby) : Prop :=
  l.players ≠ [] → hasKeyA l.players l.host = true

/-- Side condition under which the host invariant survives an operation:
an explicit replacement host supplied on the leave path must be one of
the remaining members.  (The source never validates this.) -/
def opHostSafe : RoomOp → Lobby → Prop
  | RoomOp.leave pid nh _, l =>
      l.host = pid → nh ≠ "" → hasKeyA (eraseA l.players pid) nh = true
  | _, _ => True

/-- One cast-vote step as a plain state transformer (rejections leave
the state unchanged), for iterating vote sequences. -/
def voteStep (lobby : Lobby) (a : String × String) : Lobby :=
  match castVote lobby a.1 a.2 with
  | none => lobby
  | some (l', _) => l'

/-- The vote-round bound of §4.3. -/
def voteRoundLE (l : Lobby) : Prop :=
  ∀ g, l.currentGame = some g → g.voteRound ≤ MaxVoteRounds

/-! ## Concrete example states -/

/-- A game in Voting among three members, spy `a`, with `a` and `b`
having voted for `a`. -/
def exVoteGame : Game :=
  { spyID := "a", spyName := "A", firstQuestioner := "",
    playerInfo := [("a", { challenge := "", isSpy := true }),
                   ("b", { challenge := "", isSpy := false }),
                   ("c", { challenge := "", isSpy := false })],
    status := GameStatus.voting,
    readyToReveal := [], readyAfterReveal := [], readyToVote := [],
    votes := [("a", "a"), ("b", "a")], voteRound := 1, spyForfeited := false }

/-- A three-member room carrying `exVoteGame`. -/
def exVoteLobby : Lobby :=
  { code := "ROOM01", host := "a",
    players := [("a", "A"), ("b", "B"), ("c", "C")],
    scores := [("a", { gamesWon := 0, gamesLost := 0 }),
               ("b", { gamesWon := 0, gamesLost := 0 }),
               ("c", { gamesWon := 0, gamesLost := 0 })],
    currentGame := some exVoteGame, sseClients := [] }

/-- A game in Voting among four members with a pending 2/2 tie:
`a`,`b` voted `a` and `c` voted `b`; `d` is yet to vote. -/
def exTieGame : Game :=
  { spyID := "a", spyName := "A", firstQuestioner := "",
    playerInfo := [],
    status := GameStatus.voting,
    readyToReveal := [], readyAfterReveal := [], readyToVote := [],
    votes := [("a", "a"), ("b", "a"), ("c", "b")], voteRound := 1, spyForfeited := false }

/-- A four-member room carrying `exTieGame`. -/
def exTieLobby : Lobby :=
  { code := "ROOM02", host := "a",
    players := [("a", "A"), ("b", "B"), ("c", "C"), ("d", "D")],
    scores := [("a", { gamesWon := 0, gamesLost := 0 }),
               ("b", { gamesWon := 0, gamesLost := 0 }),
               ("c", { gamesWon := 0, gamesLost := 0 }),
               ("d", { gamesWon := 0, gamesLost := 0 })],
    currentGame := some exTieGame, sseClients := [] }

/-- A two-member room (host `a`, member `b`) with no game and `b`
holding a non-zero score. -/
def exTwoLobby : Lobby :=
  { code := "ROOM03", host := "a",
    players := [("a", "A"), ("b", "B")],
    scores := [("a", { gamesWon := 0, gamesLost := 0 }),
               ("b", { gamesWon := 2, gamesLost := 1 })],
    currentGame := none, sseClients := [] }

/-- A game in ReadyCheck among four members where `a`,`b`,`c` are ready
and `d` is not: removing `d` makes the readiness set sufficient. -/
def exReadyGame : Game :=
  { spyID := "a", spyName := "A", firstQuestioner := "",
    playerInfo := [],
    status := GameStatus.readyCheck,
    readyToReveal := [("a", true), ("b", true), ("c", true), ("d", false)],
    readyAfterReveal := [], readyToVote := [],
    votes := [], voteRound := 1, spyForfeited := false }

/-- A four-member room carrying `exReadyGame`, with `d` holding an open
event-stream subscription on channel `1`. -/
def exReadyLobby : Lobby :=
  { code := "ROOM04", host := "a",
    players := [("a", "A"), ("b", "B"), ("c", "C"), ("d", "D")],
    scores := [("a", { gamesWon := 0, gamesLost := 0 }),
               ("b", { gamesWon := 0, gamesLost := 0 }),
               ("c", { gamesWon := 0, gamesLost := 0 }),
               ("d", { gamesWon := 0, gamesLost := 0 })],
    currentGame := some exReadyGame, sseClients := [(1, "d")] }

/-- A game in Voting among four members where `a`,`b`,`c` have voted and
non-spy `d` has not: removing `d` makes the vote set complete. -/
def exVotingLeaveGame : Game :=
  { spyID := "a", spyName := "A", firstQuestioner := "",
    playerInfo := [],
    status := GameStatus.voting,
    readyToReveal := [], readyAfterReveal := [], readyToVote := [],
    votes := [("a", "b"), ("b", "a"), ("c", "a")], voteRound := 1, spyForfeited := false }

/-- A four-member room carrying `exVotingLeaveGame`. -/
def exVotingLeaveLobby : Lobby :=
  { code := "ROOM05", host := "a",
    players := [("a", "A"), ("b", "B"), ("c", "C"), ("d", "D")],
    scores := [("a", { gamesWon := 0, gamesLost := 0 }),
               ("b", { gamesWon := 0, gamesLost := 0 }),
               ("c", { gamesWon := 0, gamesLost := 0 }),
               ("d", { gamesWon := 0, gamesLost := 0 })],
    currentGame := some exVotingLeaveGame, sseClients := [] }

/-- A game in Playing among four members, spy `a`. -/
def exPlayingGame : Game :=
  { spyID := "a", spyName := "A", firstQuestioner := "",
    playerInfo := [],
    status := GameStatus.playing,
    readyToReveal := [], readyAfterReveal := [], readyToVote := [],
    votes := [], voteRound := 1, spyForfeited := false }

/-- A four-member room carrying `exPlayingGame`. -/
def exPlayingLobby : Lobby :=
  { code := "ROOM06", host := "a",
    players := [("a", "A"), ("b", "B"), ("c", "C"), ("d", "D")],
    scores := [("a", { gamesWon := 0, gamesLost := 0 }),
               ("b", { gamesWon := 0, gamesLost := 0 }),
               ("c", { gamesWon := 0, gamesLost := 0 }),
               ("d", { gamesWon := 0, gamesLost := 0 })],
    currentGame := some exPlayingGame, sseClients := [] }

/-- A game in Playing among five members where `a` is ready to vote. -/
def exFiveGame : Game :=
  { spyID := "a", spyName := "A", firstQuestioner := "",
    playerInfo := [],
    status := GameStatus.playing,
    readyToReveal := [], readyAfterReveal := [],
    readyToVote := [("a", true)],
    votes := [], voteRound := 1, spyForfeited := false }

/-- A five-member room carrying `exFiveGame` (one member ready to vote;
a toggle by a second member yields a ready count of 2, which must not
advance the phase; with two already ready a third toggle yields 3,
which must). -/
def exFiveLobby : Lobby :=
  { code := "ROOM07", host := "a",
    players := [("a", "A"), ("b", "B"), ("c", "C"), ("d", "D"), ("e", "E")],
    scores := [("a", { gamesWon := 0, gamesLost := 0 }),
               ("b", { gamesWon := 0, gamesLost := 0 }),
               ("c", { gamesWon := 0, gamesLost := 0 }),
               ("d", { gamesWon := 0, gamesLost := 0 }),
               ("e", { gamesWon := 0, gamesLost := 0 })],
    currentGame := some exFiveGame, sseClients := [] }

/-- `exFiveLobby` with two members (`a`, `b`) already ready to vote. -/
def exFiveLobby2 : Lobby :=
  { exFiveLobby with currentGame := some { exFiveGame with readyToVote := [("a", true), ("b", true)] } }

/-- A registry for exercising room-code generation: only `AAAAAA` is taken. -/
def exRegistry : List Char → Bool :=
  fun code => code == "AAAAAA".toList

/-- A deterministic stand-in for the random index stream: iteration `n`
draws the constant index `n`. -/
def exStream : Nat → Nat → Nat :=
  fun n _ => n

/-! ## Association-list lemmas -/

theorem mem_keysA {α : Type} {m : List (String × α)} {a : String} :
    a ∈ keysA m ↔ hasKeyA m a = true := by
  simp [keysA, hasKeyA, List.any_eq_true, List.mem_map]

theorem eraseA_cons {α : Type} (p : String × α) (m : List (String × α)) (k : String) :
    eraseA (p :: m) k = if p.1 = k then eraseA m k else p :: eraseA m k := by
  by_cases h : p.1 = k <;> simp [eraseA, List.filter_cons, h]

theorem lookupA_cons {α : Type} (p : String × α) (m : List (String × α)) (a : String) :
    lookupA (p :: m) a = if p.1 = a then some p.2 else lookupA m a := by
  by_cases h : p.1 = a <;> simp [lookupA, List.find?_cons, h]

theorem hasKeyA_cons {α : Type} (p : String × α) (m : List (String × α)) (a : String) :
    hasKeyA (p :: m) a = (decide (p.1 = a) || hasKeyA m a) := by
  simp [hasKeyA]

theorem hasKeyA_eraseA_of_ne {α : Type} {m : List (String × α)} {k a : String} (h : a ≠ k) :
    hasKeyA (eraseA m k) a = hasKeyA m a := by
  induction m with
  | nil => rfl
  | cons p m ih =>
    rw [eraseA_cons]
    by_cases hp : p.1 = k
    · have hpa : ¬ p.1 = a := fun hh => h (hh ▸ hp)
      rw [if_pos hp, ih, hasKeyA_cons, decide_eq_false hpa, Bool.false_or]
    · rw [if_neg hp, hasKeyA_cons, hasKeyA_cons, ih]

theorem lookupA_eraseA_of_ne {α : Type} {m : List (String × α)} {k a : String} (h : a ≠ k) :
    lookupA (eraseA m k) a = lookupA m a := by
  induction m with
  | nil => rfl
  | cons p m ih =>
    rw [eraseA_cons]
    by_cases hp : p.1 = k
    · have hpa : ¬ p.1 = a := fun hh => h (hh ▸ hp)
      rw [if_pos hp, ih, lookupA_cons, if_neg hpa]
    · rw [if_neg hp, lookupA_cons, lookupA_cons, ih]

theorem lookupA_eraseA_self {α : Type} (m : List (String × α)) (k : String) :
    lookupA (eraseA m k) k = none := by
  induction m with
  | nil => rfl
  | cons p m ih =>
    rw [eraseA_cons]
    by_cases hp : p.1 = k
    · rw [if_pos hp, ih]
    · rw [if_neg hp, lookupA_cons, if_neg hp, ih]

theorem keysA_insertA {α : Type} (m : List (String × α)) (k : String) (v : α) :
    keysA (insertA m k v) = if hasKeyA m k then keysA m else keysA m ++ [k] := by
  by_cases h : hasKeyA m k
  · simp only [insertA, h, if_true, keysA, List.map_map]
    congr 1
    funext p
    by_cases hp : p.1 = k <;> simp [hp]
  · simp [insertA, h, keysA]

theorem hasKeyA_insertA_of {α : Type} {m : List (String × α)} {k a : String} {v : α}
    (h : hasKeyA m a = true) : hasKeyA (insertA m k v) a = true := by
  rw [← mem_keysA] at h ⊢
  rw [keysA_insertA]
  split <;> simp [h]

theorem updateA_cons {α : Type} (p : String × α) (m : List (String × α)) (k : String)
    (f : α → α) :
    updateA (p :: m) k f = (if p.1 = k then (p.1, f p.2) else p) :: updateA m k f := by
  by_cases h : p.1 = k <;> simp [updateA, h]

theorem lookupA_updateA {α : Type} (m : List (String × α)) (k a : String) (f : α → α) :
    lookupA (updateA m k f) a =
      if a = k then (lookupA m a).map f else lookupA m a := by
  induction m with
  | nil => by_cases h : a = k <;> simp [lookupA, updateA, h]
  | cons p m ih =>
    rw [updateA_cons]
    by_cases hp : p.1 = k
    · by_cases ha : a = k
      · subst ha
        rw [lookupA_cons, lookupA_cons, if_pos hp, if_pos hp]
        simp only [if_pos rfl] at ih ⊢
        simp [hp, ih]
      · have hpa : ¬ p.1 = a := by
          intro hh
          exact ha (hh.symm.trans hp)
        rw [lookupA_cons, lookupA_cons, if_neg (by simpa [hp] using hpa), if_neg hpa,
            ih, if_neg ha]
    · by_cases hpa : p.1 = a
      · rw [lookupA_cons, lookupA_cons, if_neg hp, if_pos hpa, if_pos hpa]
        have ha : ¬ a = k := fun hh => hp (hpa.trans hh)
        rw [if_neg ha]
      · rw [lookupA_cons, lookupA_cons, if_neg hp, if_neg hpa, if_neg hpa, ih]

theorem lookupA_map_replace_self {α : Type} (m : List (String × α)) (k : String) (v : α) :
    lookupA (m.map (fun p => if p.1 = k then (k, v) else p)) k =
      (lookupA m k).map (fun _ => v) := by
  induction m with
  | nil => rfl
  | cons p m ih =>
    rw [List.map_cons]
    by_cases hp : p.1 = k
    · rw [if_pos hp, lookupA_cons, lookupA_cons, if_pos hp]
      simp
    · rw [if_neg hp, lookupA_cons, lookupA_cons, if_neg hp, if_neg hp, ih]

theorem lookupA_map_replace_ne {α : Type} (m : List (String × α)) {k a : String} (v : α)
    (h : a ≠ k) :
    lookupA (m.map (fun p => if p.1 = k then (k, v) else p)) a = lookupA m a := by
  induction m with
  | nil => rfl
  | cons p m ih =>
    rw [List.map_cons]
    by_cases hp : p.1 = k
    · rw [if_pos hp, lookupA_cons, lookupA_cons, if_neg (Ne.symm h),
          if_neg (fun hh : p.1 = a => h (hh.symm.trans hp)), ih]
    · rw [if_neg hp, lookupA_cons, lookupA_cons, ih]

theorem lookupA_append_single {α : Type} (m : List (String × α)) (k a : String) (v : α) :
    lookupA (m ++ [(k, v)]) a =
      match lookupA m a with
      | some x => some x
      | none => if k = a then some v else none := by
  induction m with
  | nil =>
    by_cases h : k = a <;> simp [lookupA, List.find?, h]
  | cons p m ih =>
    rw [List.cons_append, lookupA_cons, lookupA_cons]
    by_cases hp : p.1 = a
    · rw [if_pos hp, if_pos hp]
    · rw [if_neg hp, if_neg hp, ih]

theorem lookupA_isSome_eq_hasKeyA {α : Type} (m : List (String × α)) (a : String) :
    (lookupA m a).isSome = hasKeyA m a := by
  induction m with
  | nil => rfl
  | cons p m ih =>
    rw [lookupA_cons, hasKeyA_cons]
    by_cases hp : p.1 = a
    · simp [hp]
    · simp only [if_neg hp, decide_eq_false hp, Bool.false_or]
      exact ih

theorem lookupA_insertA_self {α : Type} (m : List (String × α)) (k : String) (v : α) :
    lookupA (insertA m k v) k = some v := by
  unfold insertA
  by_cases h : hasKeyA m k
  · rw [if_pos h, lookupA_map_replace_self]
    have : (lookupA m k).isSome = true := by rw [lookupA_isSome_eq_hasKeyA, h]
    cases hv : lookupA m k with
    | none => rw [hv] at this; simp at this
    | some x => simp
  · rw [if_neg h, lookupA_append_single]
    have : (lookupA m k).isSome = false := by
      rw [lookupA_isSome_eq_hasKeyA]
      exact Bool.not_eq_true _ ▸ h
    cases hv : lookupA m k with
    | none => simp
    | some x => rw [hv] at this; simp at this

theorem lookupA_insertA_of_ne {α : Type} (m : List (String × α)) {k a : String} (v : α)
    (h : a ≠ k) : lookupA (insertA m k v) a = lookupA m a := by
  unfold insertA
  by_cases hk : hasKeyA m k
  · rw [if_pos hk, lookupA_map_replace_ne _ _ h]
  · rw [if_neg hk, lookupA_append_single, if_neg (Ne.symm h)]
    cases lookupA m a <;> rfl

/-! ## Fold-update lemmas (the score loops) -/

theorem lookupA_foldl_updateA_of_notKey {α : Type} (players : List (String × String))
    (scores : List (String × α)) (F : String → α → α) (id : String)
    (h : hasKeyA players id = false) :
    lookupA (players.foldl (fun sc p => updateA sc p.1 (F p.1)) scores) id =
      lookupA scores id := by
  induction players generalizing scores with
  | nil => rfl
  | cons p ps ih =>
    rw [hasKeyA_cons, Bool.or_eq_false_iff] at h
    rw [List.foldl_cons, ih _ h.2, lookupA_updateA,
        if_neg (fun hh : id = p.1 => by simp [hh.symm] at h)]

theorem lookupA_foldl_updateA_of_mem {α : Type} (players : List (String × String))
    (scores : List (String × α)) (F : String → α → α) (id : String)
    (hnd : NodupKeys players) (h : hasKeyA players id = true) :
    lookupA (players.foldl (fun sc p => updateA sc p.1 (F p.1)) scores) id =
      (lookupA scores id).map (F id) := by
  induction players generalizing scores with
  | nil => simp [hasKeyA] at h
  | cons p ps ih =>
    rw [List.foldl_cons]
    have hnd' : NodupKeys ps := (List.nodup_cons.mp hnd).2
    by_cases hp : p.1 = id
    · have hnot : hasKeyA ps id = false := by
        have := (List.nodup_cons.mp hnd).1
        rw [← Bool.not_eq_true]
        intro hmem
        exact this (hp ▸ mem_keysA.mpr hmem)
      rw [lookupA_foldl_updateA_of_notKey _ _ _ _ hnot, lookupA_updateA,
          if_pos hp.symm, hp]
    · have hps : hasKeyA ps id = true := by
        rw [hasKeyA_cons, decide_eq_false hp, Bool.false_or] at h
        exact h
      rw [ih _ hnd' hps, lookupA_updateA, if_neg (fun hh : id = p.1 => hp hh.symm)]

theorem lookupA_foldl_updateA_none {α : Type} (players : List (String × String))
    (scores : List (String × α)) (F : String → α → α) (id : String)
    (h : lookupA scores id = none) :
    lookupA (players.foldl (fun sc p => updateA sc p.1 (F p.1)) scores) id = none := by
  induction players generalizing scores with
  | nil => exact h
  | cons p ps ih =>
    rw [List.foldl_cons]
    apply ih
    rw [lookupA_updateA, h]
    split <;> rfl

theorem NodupKeys_eraseA {α : Type} {m : List (String × α)} (h : NodupKeys m) (k : String) :
    NodupKeys (eraseA m k) := by
  unfold NodupKeys keysA at h ⊢
  exact h.sublist (List.Sublist.map Prod.fst (List.filter_sublist m))

/-! ## Host reassignment -/

theorem assignNewHost_foldl_mem (l : List String) :
    ∀ acc, l.foldl (fun firstID id => if firstID = "" ∨ id < firstID then id else firstID) acc
      = acc ∨
      l.foldl (fun firstID id => if firstID = "" ∨ id < firstID then id else firstID) acc ∈ l := by
  induction l with
  | nil => intro acc; exact Or.inl rfl
  | cons x xs ih =>
    intro acc
    rw [List.foldl_cons]
    by_cases h : acc = "" ∨ x < acc
    · rw [if_pos h]
      rcases ih x with h1 | h1
      · exact Or.inr (by rw [h1]; exact List.mem_cons_self x xs)
      · exact Or.inr (List.mem_cons_of_mem x h1)
    · rw [if_neg h]
      rcases ih acc with h1 | h1
      · exact Or.inl h1
      · exact Or.inr (List.mem_cons_of_mem x h1)

theorem assignNewHost_mem (players : List (String × String)) (h : players ≠ []) :
    hasKeyA players (assignNewHost players) = true := by
  rw [← mem_keysA]
  unfold assignNewHost
  cases hk : keysA players with
  | nil =>
    exact absurd (List.map_eq_nil_iff.mp hk) h
  | cons x xs =>
    rw [List.foldl_cons, if_pos (Or.inl rfl)]
    rcases assignNewHost_foldl_mem xs x with h1 | h1
    · rw [h1]
      exact List.mem_cons_self x xs
    · exact List.mem_cons_of_mem x h1

/-! ## The tie-set -/

theorem playersWithMaxVotes_nodup (votes : List (String × String)) :
    (playersWithMaxVotes votes).Nodup :=
  (List.nodup_dedup _).filter _

theorem innocentWonCalc_iff_tieSet (votes : List (String × String)) (spy : String) :
    innocentWonCalc votes spy = true ↔ (tieSet votes).card = 1 ∧ spy ∈ tieSet votes := by
  have hnd := playersWithMaxVotes_nodup votes
  unfold innocentWonCalc tieSet
  rcases hpwm : playersWithMaxVotes votes with _ | ⟨x, _ | ⟨y, t⟩⟩
  · simp
  · simp only [List.length_cons, List.length_nil, List.headD_cons, List.toFinset_cons,
      List.toFinset_nil, insert_emptyc_eq]
    constructor
    · intro hb
      have hx : x = spy := by simpa using hb
      subst hx
      simp
    · rintro ⟨-, hmem⟩
      have : spy = x := by simpa using hmem
      simp [this]
  · rw [hpwm] at hnd
    constructor
    · intro hb
      simp at hb
    · rintro ⟨hcard, -⟩
      rw [List.toFinset_card_of_nodup hnd] at hcard
      simp at hcard

/-! ## Room-code lemmas -/

theorem GenerateRoomCode_length (r : Nat → Nat) :
    (GenerateRoomCode r).length = RoomCodeLength := by
  simp [GenerateRoomCode]

theorem GenerateRoomCode_mem (r : Nat → Nat) :
    ∀ c ∈ GenerateRoomCode r, c ∈ RoomCodeChars := by
  intro c hc
  simp only [GenerateRoomCode, List.mem_map, List.mem_range] at hc
  obtain ⟨i, -, rfl⟩ := hc
  have hlt : r i % RoomCodeChars.length < RoomCodeChars.length :=
    Nat.mod_lt _ (by decide)
  rw [List.getD_eq_getElem _ _ hlt]
  exact List.getElem_mem _

/-- `checkAndAdvancePhase` never touches membership, host or scores. -/
theorem checkAndAdvancePhase_preserves (lobby : Lobby) (rnd : Nat) :
    (checkAndAdvancePhase lobby rnd).1.players = lobby.players ∧
    (checkAndAdvancePhase lobby rnd).1.host = lobby.host ∧
    (checkAndAdvancePhase lobby rnd).1.scores = lobby.scores := by
  unfold checkAndAdvancePhase
  cases hg : lobby.currentGame with
  | none => exact ⟨rfl, rfl, rfl⟩
  | some g =>
    dsimp only
    cases hst : g.status <;> dsimp only <;>
      first
        | (split <;> exact ⟨rfl, rfl, rfl⟩)
        | exact ⟨rfl, rfl, rfl⟩

/-- A cast vote can only keep or lawfully increment the round counter:
the bound `voteRound ≤ MaxVoteRounds` survives any accepted vote. -/
theorem castVote_preserves_roundLE (lobby : Lobby) (pid sid : String) (p : Lobby × VoteOutcome)
    (h : voteRoundLE lobby) (hc : castVote lobby pid sid = some p) :
    voteRoundLE p.1 := by
  simp only [castVote] at hc
  cases hcg : lobby.currentGame with
  | none => rw [hcg] at hc; exact Option.noConfusion hc
  | some g =>
    rw [hcg] at hc
    dsimp only at hc
    by_cases hst : g.status ≠ GameStatus.voting
    · rw [if_pos hst] at hc; exact Option.noConfusion hc
    rw [if_neg hst] at hc
    by_cases hsize : (insertA g.votes pid sid).length = lobby.players.length
    · rw [if_pos hsize] at hc
      by_cases htie : (playersWithMaxVotes (insertA g.votes pid sid)).length > 1 ∧
          g.voteRound < MaxVoteRounds
      · rw [if_pos htie] at hc
        rw [Option.some_inj] at hc
        rw [← hc]
        intro g'' hg''
        rw [Option.some_inj] at hg''
        rw [← hg'']
        have := htie.2
        simp only [MaxVoteRounds] at this ⊢
        omega
      · rw [if_neg htie] at hc
        rw [Option.some_inj] at hc
        rw [← hc]
        intro g'' hg''
        rw [Option.some_inj] at hg''
        rw [← hg'']
        exact h g hcg
    · rw [if_neg hsize] at hc
      rw [Option.some_inj] at hc
      rw [← hc]
      intro g'' hg''
      rw [Option.some_inj] at hg''
      rw [← hg'']
      exact h g hcg

/-- One vote step (accepted or rejected) preserves the round bound. -/
theorem voteStep_preserves_roundLE (lobby : Lobby) (a : String × String)
    (h : voteRoundLE lobby) : voteRoundLE (voteStep lobby a) := by
  unfold voteStep
  cases hc : castVote lobby a.1 a.2 with
  | none => exact h
  | some p => exact castVote_preserves_roundLE lobby a.1 a.2 p h hc

/-- A Go map assignment never empties the map. -/
theorem insertA_ne_nil {α : Type} (m : List (String × α)) (k : String) (v : α) :
    insertA m k v ≠ [] := by
  unfold insertA
  split
  · intro hnil
    rename_i hkey
    rw [List.map_eq_nil_iff.mp hnil] at hkey
    exact Bool.noConfusion hkey
  · simp

/-- Shape of a successful leave: membership loses exactly the leaver,
the host is the explicit replacement, the auto-assignment, or unchanged,
and the surviving room is non-empty. -/
theorem handleLeaveLogic_left_shape (lobby : Lobby) (pid nh : String) (rnd : Nat)
    (l' : Lobby) (a b c : Bool)
    (h : handleLeaveLogic lobby pid nh rnd = LeaveResult.left l' a b c) :
    l'.players = eraseA lobby.players pid ∧
    l'.host = (if lobby.host = pid then
                 (if nh ≠ "" then nh else assignNewHost (eraseA lobby.players pid))
               else lobby.host) ∧
    ¬ (eraseA lobby.players pid).length = 0 := by
  simp only [handleLeaveLogic] at h
  by_cases hmem : hasKeyA lobby.players pid = true
  case neg => rw [if_pos (by simpa using hmem)] at h; exact LeaveResult.noConfusion h
  rw [if_neg (by simpa using hmem)] at h
  by_cases hlen : (eraseA lobby.players pid).length = 0
  case pos => rw [if_pos hlen] at h; exact LeaveResult.noConfusion h
  rw [if_neg hlen] at h
  cases hcg : lobby.currentGame with
  | none =>
    rw [hcg] at h; dsimp only at h
    injection h with h1 _ _ _
    exact ⟨by rw [← h1], by rw [← h1], hlen⟩
  | some g =>
    rw [hcg] at h; dsimp only at h
    by_cases hspy : g.spyID = pid
    · rw [if_pos hspy] at h
      injection h with h1 _ _ _
      exact ⟨by rw [← h1], by rw [← h1], hlen⟩
    · rw [if_neg hspy] at h
      by_cases hmin : (eraseA lobby.players pid).length < MinPlayers
      · rw [if_pos hmin] at h
        injection h with h1 _ _ _
        exact ⟨by rw [← h1], by rw [← h1], hlen⟩
      · rw [if_neg hmin] at h
        injection h with h1 _ _ _
        refine ⟨?_, ?_, hlen⟩
        · rw [← h1, (checkAndAdvancePhase_preserves _ _).1]
        · rw [← h1, (checkAndAdvancePhase_preserves _ _).2.1]

/-- Shape of a successful disconnect reconciliation: as for leave, with
host reassignment always automatic. -/
theorem handlePlayerDisconnect_left_shape (lobby : Lobby) (pid : String)
    (l' : Lobby) (a b c : Bool)
    (h : handlePlayerDisconnect lobby pid = LeaveResult.left l' a b c) :
    l'.players = eraseA lobby.players pid ∧
    l'.host = (if lobby.host = pid then assignNewHost (eraseA lobby.players pid)
               else lobby.host) ∧
    ¬ (eraseA lobby.players pid).length = 0 := by
  simp only [handlePlayerDisconnect] at h
  by_cases hmem : hasKeyA lobby.players pid = true
  case neg => rw [if_pos (by simpa using hmem)] at h; exact LeaveResult.noConfusion h
  rw [if_neg (by simpa using hmem)] at h
  by_cases hlen : (eraseA lobby.players pid).length = 0
  case pos => rw [if_pos hlen] at h; exact LeaveResult.noConfusion h
  rw [if_neg hlen] at h
  cases hcg : lobby.currentGame with
  | none =>
    rw [hcg] at h; dsimp only at h
    injection h with h1 _ _ _
    exact ⟨by rw [← h1], by rw [← h1], hlen⟩
  | some g =>
    rw [hcg] at h; dsimp only at h
    by_cases hspy : g.spyID = pid
    · rw [if_pos hspy] at h
      injection h with h1 _ _ _
      exact ⟨by rw [← h1], by rw [← h1], hlen⟩
    · rw [if_neg hspy] at h
      by_cases hmin : (eraseA lobby.players pid).length < MinPlayers
      · rw [if_pos hmin] at h
        injection h with h1 _ _ _
        exact ⟨by rw [← h1], by rw [← h1], hlen⟩
      · rw [if_neg hmin] at h
        injection h with h1 _ _ _
        exact ⟨by rw [← h1], by rw [← h1], hlen⟩

/-- Shape of a successful join: membership gains exactly the joining id
and the host is unchanged. -/
theorem handleJoinLobby_joined_shape (lobby : Lobby) (cookiePid : Option String)
    (name freshID : String) (l' : Lobby) (jid : String)
    (h : handleJoinLobby lobby cookiePid name freshID = JoinResult.joined l' jid) :
    l'.players = insertA lobby.players jid name ∧ l'.host = lobby.host := by
  simp only [handleJoinLobby] at h
  by_cases hcg : lobby.currentGame ≠ none
  case pos => rw [if_pos hcg] at h; exact JoinResult.noConfusion h
  rw [if_neg hcg] at h
  cases cookiePid with
  | none =>
    simp only [Bool.false_eq_true, if_false] at h
    by_cases htaken : isNameTaken lobby.players name freshID = true
    case pos => rw [if_pos htaken] at h; exact JoinResult.noConfusion h
    rw [if_neg htaken] at h
    injection h with h1 h2
    exact ⟨by rw [← h1, ← h2], by rw [← h1]⟩
  | some s =>
    by_cases hc : s = ""
    · subst hc
      simp only [ne_eq, not_true_eq_false, decide_False, Bool.false_and,
        Bool.false_eq_true, if_false] at h
      by_cases htaken : isNameTaken lobby.players name freshID = true
      case pos => rw [if_pos htaken] at h; exact JoinResult.noConfusion h
      rw [if_neg htaken] at h
      injection h with h1 h2
      exact ⟨by rw [← h1, ← h2], by rw [← h1]⟩
    · simp only [ne_eq, hc, not_false_eq_true, decide_True, Bool.true_and,
        if_true] at h
      by_cases hink : hasKeyA lobby.players s = true
      case pos => rw [if_pos hink] at h; exact JoinResult.noConfusion h
      rw [if_neg hink] at h
      by_cases htaken : isNameTaken lobby.players name s = true
      case pos => rw [if_pos htaken] at h; exact JoinResult.noConfusion h
      rw [if_neg htaken] at h
      injection h with h1 h2
      exact ⟨by rw [← h1, ← h2], by rw [← h1]⟩

/-- `HandleStartGame` and `HandleRestartGame` never touch membership or
host (also when rejected). -/
theorem startRestart_preserves (lobby : Lobby) (pid : String) (spyIdx : Nat)
    (challenges : List String) :
    ((handleStartGame lobby pid spyIdx challenges).getD lobby).players = lobby.players ∧
    ((handleStartGame lobby pid spyIdx challenges).getD lobby).host = lobby.host ∧
    (handleRestartGame lobby pid).players = lobby.players ∧
    (handleRestartGame lobby pid).host = lobby.host := by
  unfold handleStartGame handleRestartGame
  refine ⟨?_, ?_, ?_, ?_⟩ <;> (split <;> first | rfl | (split <;> first | rfl | (split <;> rfl)))

/-! # Claim theorems -/

/-- C9 (corrected): every generated room code has length 6 and draws
each character from `RoomCodeChars`, and `GetUniqueRoomCode` retries
until the returned code is not registered; however the alphabet has 32
characters, not 33. -/
theorem c9_room_codes (registryHas : List Char → Bool) (r : Nat → Nat → Nat)
    (h : ∃ n, registryHas (GenerateRoomCode (r n)) = false) :
    registryHas (GetUniqueRoomCode registryHas r h) = false ∧
    (GetUniqueRoomCode registryHas r h).length = RoomCodeLength ∧
    (∀ c ∈ GetUniqueRoomCode registryHas r h, c ∈ RoomCodeChars) ∧
    RoomCodeChars.length = 32 :=
  ⟨Nat.find_spec h, GenerateRoomCode_length _, GenerateRoomCode_mem _, by decide⟩

/-- C9, counterexample to the claim as stated: the room-code alphabet
`RoomCodeChars` has 32 characters, not 33. -/
theorem c9_alphabet_size_counterexample :
    RoomCodeChars.length = 32 ∧ ¬ (RoomCodeChars.length = 33) := by
  constructor <;> decide

/-- C9, witness: a concrete registry holding `AAAAAA` and a draw stream
whose iteration `n` yields the letter at index `n`; the second draw is
free of the registry and has the required shape. -/
theorem c9_witness :
    ∃ h : ∃ n, exRegistry (GenerateRoomCode (exStream n)) = false,
      exRegistry (GetUniqueRoomCode exRegistry exStream h) = false ∧
      (GetUniqueRoomCode exRegistry exStream h).length = RoomCodeLength := by
  refine ⟨⟨1, by decide⟩, ?_, ?_⟩
  · exact (c9_room_codes exRegistry exStream _).1
  · exact (c9_room_codes exRegistry exStream _).2.1

/-- C10 (confirmed): the cast-vote operation is rejected exactly when no
game exists or the phase is not Voting; it performs no membership check,
so in the concrete three-member room `exVoteLobby` (members `a`,`b`,`c`;
`a` and `b` have voted) a ballot from the non-member session `x` is
recorded and completes the vote count, firing the tally — the game
finishes although member `c` never voted. -/
theorem c10_vote_no_membership_check :
    (∀ lobby pid sid, castVote lobby pid sid = none ↔
       (lobby.currentGame = none ∨
        ∃ g, lobby.currentGame = some g ∧ g.status ≠ GameStatus.voting)) ∧
    hasKeyA exVoteLobby.players "x" = false ∧
    hasKeyA exVoteLobby.players "c" = true ∧
    lookupA exVoteGame.votes "c" = none ∧
    (∃ l', castVote exVoteLobby "x" "a" = some (l', VoteOutcome.finishedGame true) ∧
       ∃ g', l'.currentGame = some g' ∧ g'.status = GameStatus.finished ∧
         hasKeyA g'.votes "x" = true ∧ hasKeyA g'.votes "c" = false) := by
  refine ⟨?_, by decide, by decide, by decide, ?_⟩
  · intro lobby pid sid
    cases hg : lobby.currentGame with
    | none => simp [castVote, hg]
    | some g =>
      by_cases hst : g.status = GameStatus.voting
      · simp only [castVote, hg, hst, ne_eq, not_true_eq_false, if_false]
        constructor
        · intro hc
          exfalso
          by_cases hsize :
              (insertA g.votes pid sid).length = lobby.players.length
          · rw [if_pos hsize] at hc
            by_cases htie :
                (playersWithMaxVotes (insertA g.votes pid sid)).length > 1 ∧
                  g.voteRound < MaxVoteRounds
            · rw [if_pos htie] at hc
              exact Option.noConfusion hc
            · rw [if_neg htie] at hc
              exact Option.noConfusion hc
          · rw [if_neg hsize] at hc
            exact Option.noConfusion hc
        · rintro (hnone | ⟨g', hg', hst'⟩)
          · exact Option.noConfusion hnone
          · rw [Option.some_inj] at hg'
            exact absurd (hg' ▸ hst) hst'
      · simp only [castVote, hg]
        rw [if_pos (by simpa using hst)]
        simp only [true_iff]
        exact Or.inr ⟨g, rfl, hst⟩
  · refine ⟨_, rfl, _, rfl, ?_, ?_, ?_⟩ <;> decide

/-- C8, counterexample to the claim as stated: in the two-member room
`exTwoLobby`, `b` holds the score (2 wins, 1 loss); after `b` leaves the
room (which survives, `a` remains), `b`'s score entry is gone rather
than unchanged. -/
theorem c8_counterexample :
    ∃ l' adv ge iw, handleLeaveLogic exTwoLobby "b" "" 0 = LeaveResult.left l' adv ge iw ∧
      lookupA exTwoLobby.scores "b" = some { gamesWon := 2, gamesLost := 1 } ∧
      lookupA l'.scores "b" = none := by
  refine ⟨_, _, _, _, rfl, by decide, by decide⟩

/-- C8 (corrected): leaving deletes the player's score entry along with
their membership whenever the room survives; and a join creates a fresh
zero score entry unless one still exists (only an entry that survived —
which, after a leave, none does — is reused). -/
theorem c8_leave_deletes_score_and_rejoin :
    (∀ lobby pid nh rnd l' adv ge iw,
       handleLeaveLogic lobby pid nh rnd = LeaveResult.left l' adv ge iw →
       lookupA l'.scores pid = none) ∧
    (∀ lobby cookiePid name freshID l' jid,
       handleJoinLobby lobby cookiePid name freshID = JoinResult.joined l' jid →
       lookupA l'.scores jid =
         (if hasKeyA lobby.scores jid then lookupA lobby.scores jid
          else some { gamesWon := 0, gamesLost := 0 })) := by
  constructor
  · intro lobby pid nh rnd l' adv ge iw h
    simp only [handleLeaveLogic] at h
    by_cases hmem : hasKeyA lobby.players pid = true
    case neg => rw [if_pos (by simpa using hmem)] at h; exact LeaveResult.noConfusion h
    rw [if_neg (by simpa using hmem)] at h
    by_cases hlen : (eraseA lobby.players pid).length = 0
    case pos => rw [if_pos hlen] at h; exact LeaveResult.noConfusion h
    rw [if_neg hlen] at h
    cases hcg : lobby.currentGame with
    | none =>
      rw [hcg] at h
      dsimp only at h
      injection h with h1 _ _ _
      rw [← h1]
      exact lookupA_eraseA_self _ _
    | some g =>
      rw [hcg] at h
      dsimp only at h
      by_cases hspy : g.spyID = pid
      · rw [if_pos hspy] at h
        injection h with h1 _ _ _
        rw [← h1]
        simp only [awardWinsAll]
        exact lookupA_foldl_updateA_none _ _
          (fun _ => fun s : PlayerScore => { s with gamesWon := s.gamesWon + 1 }) _
          (lookupA_eraseA_self _ _)
      · rw [if_neg hspy] at h
        by_cases hmin : (eraseA lobby.players pid).length < MinPlayers
        · rw [if_pos hmin] at h
          injection h with h1 _ _ _
          rw [← h1]
          exact lookupA_eraseA_self _ _
        · rw [if_neg hmin] at h
          injection h with h1 _ _ _
          rw [← h1, (checkAndAdvancePhase_preserves _ _).2.2]
          exact lookupA_eraseA_self _ _
  · intro lobby cookiePid name freshID l' jid h
    simp only [handleJoinLobby] at h
    by_cases hcg : lobby.currentGame ≠ none
    case pos => rw [if_pos hcg] at h; exact JoinResult.noConfusion h
    rw [if_neg hcg] at h
    cases cookiePid with
    | none =>
      simp only [Bool.false_eq_true, if_false] at h
      by_cases htaken : isNameTaken lobby.players name freshID = true
      case pos => rw [if_pos htaken] at h; exact JoinResult.noConfusion h
      rw [if_neg htaken] at h
      injection h with h1 h2
      rw [← h1, ← h2]
      dsimp only
      by_cases hsc : hasKeyA lobby.scores freshID = true
      · rw [if_pos hsc, if_pos hsc]
      · rw [if_neg hsc, if_neg hsc]
        exact lookupA_insertA_self _ _ _
    | some c =>
      by_cases hc : c = ""
      · subst hc
        simp only [ne_eq, not_true_eq_false, decide_False, Bool.false_and,
          Bool.false_eq_true, if_false] at h
        by_cases htaken : isNameTaken lobby.players name freshID = true
        case pos => rw [if_pos htaken] at h; exact JoinResult.noConfusion h
        rw [if_neg htaken] at h
        injection h with h1 h2
        rw [← h1, ← h2]
        dsimp only
        by_cases hsc : hasKeyA lobby.scores freshID = true
        · rw [if_pos hsc, if_pos hsc]
        · rw [if_neg hsc, if_neg hsc]
          exact lookupA_insertA_self _ _ _
      · simp only [ne_eq, hc, not_false_eq_true, decide_True, Bool.true_and,
          if_true] at h
        by_cases hink : hasKeyA lobby.players c = true
        case pos => rw [if_pos hink] at h; exact JoinResult.noConfusion h
        rw [if_neg hink] at h
        by_cases htaken : isNameTaken lobby.players name c = true
        case pos => rw [if_pos htaken] at h; exact JoinResult.noConfusion h
        rw [if_neg htaken] at h
        injection h with h1 h2
        rw [← h1, ← h2]
        dsimp only
        by_cases hsc : hasKeyA lobby.scores c = true
        · rw [if_pos hsc, if_pos hsc]
        · rw [if_neg hsc, if_neg hsc]
          exact lookupA_insertA_self _ _ _

/-- C8, witness: `b` leaves `exTwoLobby` (score entry vanishes), and a
fresh player `z` joining `exTwoLobby` receives a zero score entry. -/
theorem c8_witness :
    (∃ l' adv ge iw, handleLeaveLogic exTwoLobby "b" "" 0 = LeaveResult.left l' adv ge iw ∧
       lookupA l'.scores "b" = none) ∧
    (∃ l' jid, handleJoinLobby exTwoLobby none "Zed" "z" = JoinResult.joined l' jid ∧
       lookupA l'.scores jid = some { gamesWon := 0, gamesLost := 0 }) := by
  constructor
  · refine ⟨_, _, _, _, rfl, ?_⟩
    exact c8_leave_deletes_score_and_rejoin.1 exTwoLobby "b" "" 0 _ _ _ _ rfl
  · refine ⟨_, _, rfl, ?_⟩
    have := c8_leave_deletes_score_and_rejoin.2 exTwoLobby none "Zed" "z" _ _ rfl
    rw [this]
    decide

/-- C3, counterexample to the claim as stated: in `exTwoLobby` the host
`a` leaves naming the non-member `z` as explicit replacement; the
surviving room has member `b` but host `z`, which is not a member. -/
theorem c3_counterexample :
    ∃ l', applyRoomOp exTwoLobby (RoomOp.leave "a" "z" 0) = some l' ∧
      l'.players ≠ [] ∧ hasKeyA l'.players l'.host = false := by
  refine ⟨_, rfl, by decide, by decide⟩

/-- C7 (confirmed): in the Playing phase, the ready action advances the
game to Voting if and only if the toggled ready-to-vote count strictly
exceeds the member count under integer division by two. -/
theorem c7_playing_advance_iff_majority (lobby : Lobby) (g : Game) (pid : String) (rnd : Nat)
    (hg : lobby.currentGame = some g) (hst : g.status = GameStatus.playing) :
    ∃ l' adv, gameHandleReady lobby pid rnd = some (l', adv) ∧
      ((∃ g', l'.currentGame = some g' ∧ g'.status = GameStatus.voting) ↔
        countReady lobby.players
            (insertA g.readyToVote pid (! ((lookupA g.readyToVote pid).getD false))) >
          lobby.players.length / 2) := by
  simp only [gameHandleReady, hg, hst]
  by_cases hc : countReady lobby.players
      (insertA g.readyToVote pid (! ((lookupA g.readyToVote pid).getD false))) >
      lobby.players.length / 2
  · rw [if_pos hc]
    exact ⟨_, _, rfl, ⟨fun _ => hc, fun _ => ⟨_, rfl, rfl⟩⟩⟩
  · rw [if_neg hc]
    refine ⟨_, _, rfl, ⟨?_, fun hcc => absurd hcc hc⟩⟩
    rintro ⟨g', hg', hst'⟩
    rw [Option.some_inj] at hg'
    rw [← hg'] at hst'
    dsimp only at hst'
    exact GameStatus.noConfusion hst'

/-- C7, witness: with five members in Playing, a toggle yielding a ready
count of 2 does not advance (5/2 = 2, ¬(2 > 2)), and a toggle yielding
3 advances (3 > 2). -/
theorem c7_witness :
    (∃ l' adv, gameHandleReady exFiveLobby "b" 0 = some (l', adv) ∧
       ¬ ∃ g', l'.currentGame = some g' ∧ g'.status = GameStatus.voting) ∧
    (∃ l' adv, gameHandleReady exFiveLobby2 "c" 0 = some (l', adv) ∧
       ∃ g', l'.currentGame = some g' ∧ g'.status = GameStatus.voting) := by
  constructor
  · obtain ⟨l', adv, h1, h2⟩ :=
      c7_playing_advance_iff_majority exFiveLobby exFiveGame "b" 0 rfl rfl
    exact ⟨l', adv, h1, fun hv => absurd (h2.mp hv) (by decide)⟩
  · obtain ⟨l', adv, h1, h2⟩ :=
      c7_playing_advance_iff_majority exFiveLobby2
        { exFiveGame with readyToVote := [("a", true), ("b", true)] } "c" 0 rfl rfl
    exact ⟨l', adv, h1, h2.mpr (by decide)⟩

/-- C6 (confirmed): whenever the departing player is the spy — on the
explicit-leave path and on the disconnect path alike — the game is
immediately finished with `spyForfeited = true`, the votes are neither
tallied nor cleared (the vote map is only purged of the leaver and the
round counter is untouched), and every remaining member's score gains a
win. -/
theorem c6_spy_departure (lobby : Lobby) (g : Game) (pid nh : String) (rnd : Nat)
    (hg : lobby.currentGame = some g) (hspy : g.spyID = pid)
    (hmem : hasKeyA lobby.players pid = true)
    (hnd : NodupKeys lobby.players)
    (hrem : ¬ (eraseA lobby.players pid).length = 0) :
    (∃ l', handleLeaveLogic lobby pid nh rnd = LeaveResult.left l' false true true ∧
       (∃ g', l'.currentGame = some g' ∧ g'.status = GameStatus.finished ∧
          g'.spyForfeited = true ∧ g'.votes = eraseA g.votes pid ∧
          g'.voteRound = g.voteRound) ∧
       (∀ id name s, (id, name) ∈ lobby.players → id ≠ pid →
          lookupA lobby.scores id = some s →
          lookupA l'.scores id = some { gamesWon := s.gamesWon + 1, gamesLost := s.gamesLost })) ∧
    (∃ l', handlePlayerDisconnect lobby pid = LeaveResult.left l' false true true ∧
       (∃ g', l'.currentGame = some g' ∧ g'.status = GameStatus.finished ∧
          g'.spyForfeited = true ∧ g'.votes = eraseA g.votes pid ∧
          g'.voteRound = g.voteRound) ∧
       (∀ id name s, (id, name) ∈ lobby.players → id ≠ pid →
          lookupA lobby.scores id = some s →
          lookupA l'.scores id = some { gamesWon := s.gamesWon + 1, gamesLost := s.gamesLost })) := by
  have hscores : ∀ id name s, (id, name) ∈ lobby.players → id ≠ pid →
      lookupA lobby.scores id = some s →
      lookupA (awardWinsAll (eraseA lobby.players pid) (eraseA lobby.scores pid)) id =
        some { gamesWon := s.gamesWon + 1, gamesLost := s.gamesLost } := by
    intro id name s hmem' hne hs
    have hkey : hasKeyA (eraseA lobby.players pid) id = true := by
      rw [hasKeyA_eraseA_of_ne hne, ← mem_keysA]
      exact List.mem_map_of_mem Prod.fst hmem'
    have hnd' : NodupKeys (eraseA lobby.players pid) := NodupKeys_eraseA hnd pid
    simp only [awardWinsAll]
    rw [lookupA_foldl_updateA_of_mem _ _
          (fun _ => fun t : PlayerScore => { t with gamesWon := t.gamesWon + 1 }) _ hnd' hkey,
        lookupA_eraseA_of_ne hne, hs]
    rfl
  constructor
  · simp only [handleLeaveLogic]
    rw [if_neg (by simpa using hmem), if_neg hrem, hg]
    dsimp only
    rw [if_pos hspy]
    refine ⟨_, rfl, ⟨_, rfl, rfl, rfl, ?_, rfl⟩, hscores⟩
    simp [removePlayerFromGame]
  · simp only [handlePlayerDisconnect]
    rw [if_neg (by simpa using hmem), if_neg hrem, hg]
    dsimp only
    rw [if_pos hspy]
    refine ⟨_, rfl, ⟨_, rfl, rfl, rfl, ?_, rfl⟩, hscores⟩
    simp [removePlayerFromGame]

/-- C6, witness: the spy `a` leaves the four-member room
`exPlayingLobby` in Playing phase; the game is Finished with
`spyForfeited` and the remaining member `b` gains a win. -/
theorem c6_witness :
    ∃ l', handleLeaveLogic exPlayingLobby "a" "" 0 = LeaveResult.left l' false true true ∧
      (∃ g', l'.currentGame = some g' ∧ g'.status = GameStatus.finished ∧
         g'.spyForfeited = true) ∧
      lookupA l'.scores "b" = some { gamesWon := 1, gamesLost := 0 } := by
  obtain ⟨⟨l', h1, ⟨g', hg', hstat, hforf, -, -⟩, hsc⟩, -⟩ :=
    c6_spy_departure exPlayingLobby exPlayingGame "a" "" 0 rfl rfl (by decide) (by decide)
      (by decide)
  refine ⟨l', h1, ⟨g', hg', hstat, hforf⟩, ?_⟩
  have := hsc "b" "B" { gamesWon := 0, gamesLost := 0 } (by decide) (by decide) (by decide)
  simpa using this

/-- C5, counterexample to the claim as stated: in `exVotingLeaveLobby`
(four members, Voting, `a`,`b`,`c` have voted, spy `a`), the non-spy `d`
leaves with three members remaining and every remaining member holding a
vote; yet no tally runs — the game neither revotes (votes are not
cleared, the round is not incremented) nor finishes (scores are only
purged of `d`, never updated). -/
theorem c5_counterexample :
    ∃ l' g', handleLeaveLogic exVotingLeaveLobby "d" "" 0 = LeaveResult.left l' true false false ∧
      l'.currentGame = some g' ∧
      ¬ g'.status = GameStatus.finished ∧ ¬ g'.votes = [] ∧ g'.voteRound = 1 ∧
      l'.scores = eraseA exVotingLeaveLobby.scores "d" := by
  refine ⟨_, _, rfl, rfl, by decide, by decide, rfl, rfl⟩

/-- C5 (corrected): when a non-spy departs during Voting with at least
`MinPlayers` members remaining and every remaining member holds a vote,
`checkAndAdvancePhase` only reports completion (the advanced flag is
raised, triggering a navigation broadcast); no tally of §4.3 runs — the
phase stays Voting, the surviving votes and the round counter are
unchanged, and no score is updated. -/
theorem c5_leave_in_voting_reports_only (lobby : Lobby) (g : Game) (pid nh : String)
    (rnd : Nat)
    (hg : lobby.currentGame = some g) (hst : g.status = GameStatus.voting)
    (hmem : hasKeyA lobby.players pid = true)
    (hnotspy : ¬ g.spyID = pid)
    (hmin : ¬ (eraseA lobby.players pid).length < MinPlayers)
    (hall : (eraseA g.votes pid).length = (eraseA lobby.players pid).length) :
    ∃ l', handleLeaveLogic lobby pid nh rnd = LeaveResult.left l' true false false ∧
      (∃ g', l'.currentGame = some g' ∧ g'.status = GameStatus.voting ∧
         g'.votes = eraseA g.votes pid ∧ g'.voteRound = g.voteRound) ∧
      l'.scores = eraseA lobby.scores pid := by
  have hrem : ¬ (eraseA lobby.players pid).length = 0 := by
    intro h0
    rw [h0] at hmin
    exact hmin (by decide)
  simp only [handleLeaveLogic]
  rw [if_neg (by simpa using hmem), if_neg hrem, hg]
  dsimp only
  rw [if_neg hnotspy, if_neg hmin]
  simp only [checkAndAdvancePhase, removePlayerFromGame]
  rw [hst]
  dsimp only
  rw [decide_eq_true hall]
  exact ⟨_, rfl, ⟨_, rfl, rfl, rfl, rfl⟩, rfl⟩

/-- C5, witness: the amended behaviour at the concrete room
`exVotingLeaveLobby`. -/
theorem c5_witness :
    ∃ l', handleLeaveLogic exVotingLeaveLobby "d" "" 0 = LeaveResult.left l' true false false ∧
      (∃ g', l'.currentGame = some g' ∧ g'.status = GameStatus.voting ∧
         g'.votes = eraseA exVotingLeaveGame.votes "d" ∧
         g'.voteRound = exVotingLeaveGame.voteRound) ∧
      l'.scores = eraseA exVotingLeaveLobby.scores "d" :=
  c5_leave_in_voting_reports_only exVotingLeaveLobby exVotingLeaveGame "d" "" 0 rfl rfl
    (by decide) (by decide) (by decide) (by decide)

/-- C2 (confirmed): a tie on a completed vote with `voteRound <
MaxVoteRounds` clears the votes map, increments `voteRound`, keeps the
phase at Voting and never touches the scores; and over any sequence of
cast-vote actions the round counter never exceeds `MaxVoteRounds`
(i.e. 3). -/
theorem c2_tie_revote_and_round_cap :
    (∀ lobby g pid sid, lobby.currentGame = some g → g.status = GameStatus.voting →
       (insertA g.votes pid sid).length = lobby.players.length →
       (playersWithMaxVotes (insertA g.votes pid sid)).length > 1 →
       g.voteRound < MaxVoteRounds →
       ∃ l', castVote lobby pid sid = some (l', VoteOutcome.revote) ∧
         (∃ g', l'.currentGame = some g' ∧ g'.votes = [] ∧
            g'.voteRound = g.voteRound + 1 ∧ g'.status = GameStatus.voting) ∧
         l'.scores = lobby.scores) ∧
    (∀ (lobby : Lobby) (acts : List (String × String)),
       voteRoundLE lobby → voteRoundLE (acts.foldl voteStep lobby)) := by
  constructor
  · intro lobby g pid sid hg hst hsize htie hround
    simp only [castVote, hg]
    rw [if_neg (by simp [hst]), if_pos hsize, if_pos ⟨htie, hround⟩]
    exact ⟨_, rfl, ⟨_, rfl, rfl, rfl, hst⟩, rfl⟩
  · intro lobby acts
    induction acts generalizing lobby with
    | nil => exact fun h => h
    | cons a as ih =>
      intro h
      rw [List.foldl_cons]
      exact ih _ (voteStep_preserves_roundLE lobby a h)

/-- C2, witness: in the four-member room `exTieLobby` the final ballot
`d → b` completes a 2/2 split on round 1: the votes map is cleared,
`voteRound` becomes 2, the phase remains Voting and scores are
untouched; and the concrete room's round bound survives that vote
sequence. -/
theorem c2_witness :
    (∃ l', castVote exTieLobby "d" "b" = some (l', VoteOutcome.revote) ∧
       (∃ g', l'.currentGame = some g' ∧ g'.votes = [] ∧
          g'.voteRound = 2 ∧ g'.status = GameStatus.voting) ∧
       l'.scores = exTieLobby.scores) ∧
    voteRoundLE (List.foldl voteStep exTieLobby [("d", "b")]) := by
  constructor
  · exact c2_tie_revote_and_round_cap.1 exTieLobby exTieGame "d" "b" rfl rfl (by decide)
      (by decide) (by decide)
  · apply c2_tie_revote_and_round_cap.2 exTieLobby [("d", "b")]
    intro g hg
    have heq : exTieGame = g := Option.some_inj.mp hg
    rw [← heq]
    decide

/-- C1 (confirmed): when the vote map completes (its size equals the
member count) and no revote fires, the phase becomes Finished; the
outcome is an innocent win exactly when the tie-set is the singleton
`{spyID}`; and on finish every current member's score entry is updated —
the spy gains a loss if innocents won else a win, every non-spy member
the mirror outcome. -/
theorem c1_tally_finalize (lobby : Lobby) (g : Game) (pid sid : String)
    (hg : lobby.currentGame = some g) (hst : g.status = GameStatus.voting)
    (hnd : NodupKeys lobby.players)
    (hsize : (insertA g.votes pid sid).length = lobby.players.length)
    (hfin : ¬ ((playersWithMaxVotes (insertA g.votes pid sid)).length > 1 ∧
               g.voteRound < MaxVoteRounds)) :
    ∃ l' iw, castVote lobby pid sid = some (l', VoteOutcome.finishedGame iw) ∧
      (∃ g', l'.currentGame = some g' ∧ g'.status = GameStatus.finished) ∧
      (iw = true ↔ (tieSet (insertA g.votes pid sid)).card = 1 ∧
         g.spyID ∈ tieSet (insertA g.votes pid sid)) ∧
      (∀ id name s, (id, name) ∈ lobby.players → lookupA lobby.scores id = some s →
        lookupA l'.scores id =
          some (if id = g.spyID then
                  (if iw then { gamesWon := s.gamesWon, gamesLost := s.gamesLost + 1 }
                   else { gamesWon := s.gamesWon + 1, gamesLost := s.gamesLost })
                else
                  (if iw then { gamesWon := s.gamesWon + 1, gamesLost := s.gamesLost }
                   else { gamesWon := s.gamesWon, gamesLost := s.gamesLost + 1 }))) := by
  simp only [castVote, hg]
  rw [if_neg (by simp [hst]), if_pos hsize, if_neg hfin]
  refine ⟨_, _, rfl, ⟨_, rfl, rfl⟩, innocentWonCalc_iff_tieSet _ _, ?_⟩
  intro id name s hmem hs
  have hkey : hasKeyA lobby.players id = true :=
    mem_keysA.mp (List.mem_map_of_mem Prod.fst hmem)
  simp only [applyFinishScores]
  rw [lookupA_foldl_updateA_of_mem _ _
        (finishScoreFn (innocentWonCalc (insertA g.votes pid sid) g.spyID) g.spyID) _
        hnd hkey, hs]
  simp only [Option.map_some']
  unfold finishScoreFn
  by_cases h1 : id = g.spyID <;>
    by_cases h2 : innocentWonCalc (insertA g.votes pid sid) g.spyID = true <;>
      simp [h1, h2]

/-- C1, witness: in `exVoteLobby` the last voter `c` votes `b`; counts
are `a : 2`, `b : 1`, the tie-set is the singleton `{a}` which is the
spy — innocents win, the spy `a` gains a loss and `b`, `c` gain wins. -/
theorem c1_witness :
    ∃ l' iw, castVote exVoteLobby "c" "b" = some (l', VoteOutcome.finishedGame iw) ∧
      (∃ g', l'.currentGame = some g' ∧ g'.status = GameStatus.finished) ∧
      lookupA l'.scores "a" =
        some (if "a" = exVoteGame.spyID then
                (if iw then { gamesWon := 0, gamesLost := 0 + 1 }
                 else { gamesWon := 0 + 1, gamesLost := 0 })
              else
                (if iw then { gamesWon := 0 + 1, gamesLost := 0 }
                 else { gamesWon := 0, gamesLost := 0 + 1 })) := by
  obtain ⟨l', iw, h1, h2, h3, h4⟩ :=
    c1_tally_finalize exVoteLobby exVoteGame "c" "b" rfl rfl (by decide) (by decide)
      (by decide)
  exact ⟨l', iw, h1, h2,
    h4 "a" "A" { gamesWon := 0, gamesLost := 0 } (by decide) (by decide)⟩

/-- C3 (corrected): room creation establishes the host invariant, and
every operation preserves it — and keeps the surviving room non-empty —
provided any explicit replacement host named on the leave path is one
of the remaining members (`opHostSafe`); the source never validates
that, which is what `c3_counterexample` exploits. -/
theorem c3_host_invariant :
    (∀ hostName playerID roomCode,
       hostInvariant (handleCreateLobby hostName playerID roomCode)) ∧
    (∀ lobby op, hostInvariant lobby → lobby.players ≠ [] → opHostSafe op lobby →
       ∀ l', applyRoomOp lobby op = some l' → hostInvariant l' ∧ l'.players ≠ []) := by
  constructor
  · intro hostName playerID roomCode
    intro _
    simp [handleCreateLobby, hasKeyA]
  · intro lobby op hinv hne hsafe l' happly
    cases op with
    | join cookiePid name freshID =>
      simp only [applyRoomOp] at happly
      cases hj : handleJoinLobby lobby cookiePid name freshID with
      | joined l jid =>
        rw [hj] at happly
        dsimp only at happly
        rw [Option.some_inj] at happly
        obtain ⟨hp, hh⟩ := handleJoinLobby_joined_shape _ _ _ _ _ _ hj
        rw [← happly]
        refine ⟨?_, ?_⟩
        · intro _
          rw [hp, hh]
          exact hasKeyA_insertA_of (hinv hne)
        · rw [hp]
          exact insertA_ne_nil _ _ _
      | gameInProgress =>
        rw [hj] at happly; dsimp only at happly
        rw [Option.some_inj] at happly
        rw [← happly]; exact ⟨hinv, hne⟩
      | alreadyInLobby =>
        rw [hj] at happly; dsimp only at happly
        rw [Option.some_inj] at happly
        rw [← happly]; exact ⟨hinv, hne⟩
      | nameTaken =>
        rw [hj] at happly; dsimp only at happly
        rw [Option.some_inj] at happly
        rw [← happly]; exact ⟨hinv, hne⟩
    | leave pid nh rnd =>
      simp only [applyRoomOp] at happly
      cases hl : handleLeaveLogic lobby pid nh rnd with
      | notInLobby =>
        rw [hl] at happly; dsimp only at happly
        rw [Option.some_inj] at happly
        rw [← happly]; exact ⟨hinv, hne⟩
      | roomDeleted =>
        rw [hl] at happly; dsimp only at happly
        exact Option.noConfusion happly
      | left l a b c =>
        rw [hl] at happly; dsimp only at happly
        rw [Option.some_inj] at happly
        obtain ⟨hp, hh, hlen⟩ := handleLeaveLogic_left_shape _ _ _ _ _ _ _ _ hl
        rw [← happly]
        have hpn : l.players ≠ [] := by
          rw [hp]
          intro hnil
          rw [hnil] at hlen
          exact hlen rfl
        refine ⟨?_, hpn⟩
        intro _
        rw [hp, hh]
        by_cases hwas : lobby.host = pid
        · rw [if_pos hwas]
          by_cases hnh : nh ≠ ""
          · rw [if_pos hnh]
            exact hsafe hwas hnh
          · rw [if_neg hnh]
            apply assignNewHost_mem
            rw [← hp]
            exact hpn
        · rw [if_neg hwas]
          rw [hasKeyA_eraseA_of_ne (fun hh2 => hwas hh2)]
          exact hinv hne
    | disconnect pid =>
      simp only [applyRoomOp] at happly
      cases hl : handlePlayerDisconnect lobby pid with
      | notInLobby =>
        rw [hl] at happly; dsimp only at happly
        rw [Option.some_inj] at happly
        rw [← happly]; exact ⟨hinv, hne⟩
      | roomDeleted =>
        rw [hl] at happly; dsimp only at happly
        exact Option.noConfusion happly
      | left l a b c =>
        rw [hl] at happly; dsimp only at happly
        rw [Option.some_inj] at happly
        obtain ⟨hp, hh, hlen⟩ := handlePlayerDisconnect_left_shape _ _ _ _ _ _ hl
        rw [← happly]
        have hpn : l.players ≠ [] := by
          rw [hp]
          intro hnil
          rw [hnil] at hlen
          exact hlen rfl
        refine ⟨?_, hpn⟩
        intro _
        rw [hp, hh]
        by_cases hwas : lobby.host = pid
        · rw [if_pos hwas]
          apply assignNewHost_mem
          rw [← hp]
          exact hpn
        · rw [if_neg hwas]
          rw [hasKeyA_eraseA_of_ne (fun hh2 => hwas hh2)]
          exact hinv hne
    | start pid spyIdx challenges =>
      simp only [applyRoomOp] at happly
      rw [Option.some_inj] at happly
      obtain ⟨hp, hh, -, -⟩ := startRestart_preserves lobby pid spyIdx challenges
      rw [← happly]
      constructor
      · intro _
        rw [hp, hh]
        exact hinv hne
      · rw [hp]
        exact hne
    | restart pid =>
      simp only [applyRoomOp] at happly
      rw [Option.some_inj] at happly
      obtain ⟨-, -, hp, hh⟩ := startRestart_preserves lobby pid 0 []
      rw [← happly]
      constructor
      · intro _
        rw [hp, hh]
        exact hinv hne
      · rw [hp]
        exact hne
    | close pid =>
      simp only [applyRoomOp] at happly
      by_cases hhost : lobby.host = pid
      · rw [if_pos hhost] at happly
        exact Option.noConfusion happly
      · rw [if_neg hhost] at happly
        rw [Option.some_inj] at happly
        rw [← happly]
        exact ⟨hinv, hne⟩

/-- C3, witness: creation establishes the invariant, and in the
two-member room `exTwoLobby` the host `a` leaving with auto-assignment
hands the host role to the remaining member `b`. -/
theorem c3_witness :
    hostInvariant (handleCreateLobby "Ann" "a" "ROOM08") ∧
    (∃ l', applyRoomOp exTwoLobby (RoomOp.leave "a" "" 0) = some l' ∧
       hostInvariant l' ∧ l'.players ≠ []) := by
  constructor
  · exact c3_host_invariant.1 "Ann" "a" "ROOM08"
  · refine ⟨_, rfl, ?_⟩
    exact c3_host_invariant.2 exTwoLobby (RoomOp.leave "a" "" 0) (fun _ => by decide)
      (by decide) (fun hw hn => absurd rfl hn) _ rfl

/-- C4 (code bug): when a player's event stream closes, the server only
removes the SSE subscription (`handleSSE` returns on `reqCtx.Done()` and
the deferred `RemoveClient` runs); no leave reconciliation happens — in
`exReadyLobby`, after `d`'s only stream (channel 1) closes, `d` is still
a member with a score and game entry.  The routine written for this,
`handlePlayerDisconnect`, has no caller; and even it differs from the
explicit leave: in the same state, leave advances ReadyCheck →
RoleReveal via `checkAndAdvancePhase`, while `handlePlayerDisconnect`
leaves the phase at ReadyCheck. -/
theorem c4_stream_close_no_reconciliation :
    (handleSSEStreamClose exReadyLobby 1).players = exReadyLobby.players ∧
    hasKeyA (handleSSEStreamClose exReadyLobby 1).players "d" = true ∧
    hasKeyA (handleSSEStreamClose exReadyLobby 1).scores "d" = true ∧
    (handleSSEStreamClose exReadyLobby 1).currentGame = exReadyLobby.currentGame ∧
    (handleSSEStreamClose exReadyLobby 1).sseClients = [] ∧
    (∃ l' g', handleLeaveLogic exReadyLobby "d" "" 0 = LeaveResult.left l' true false false ∧
       l'.currentGame = some g' ∧ g'.status = GameStatus.roleReveal) ∧
    (∃ l' g', handlePlayerDisconnect exReadyLobby "d" = LeaveResult.left l' false false false ∧
       l'.currentGame = some g' ∧ g'.status = GameStatus.readyCheck) := by
  refine ⟨rfl, by decide, by decide, rfl, rfl, ⟨_, _, rfl, rfl, rfl⟩, ⟨_, _, rfl, rfl, rfl⟩⟩

end Sus
